import Mathlib

/-!
Verification of the SO(3) utilities of `implicit_pdf`
(`src/implicit_pdf/utils.py` and `src/implicit_pdf/recorder.py`) against the
module specification.

Floating-point tensors are modelled by real numbers; `torch.atan2` /
`np.arctan2` by the quadrant-aware `atan2` below; `torch.arcsin` by
`Real.arcsin`.  Batches are modelled by lists.
-/

namespace ImplicitPdf

open Real

/-- 3×3 real matrices, the model of a (3, 3) float tensor. -/
abbrev M3 := Matrix (Fin 3) (Fin 3) ℝ

/-- Quadrant-aware arctangent, the semantics of `torch.atan2 y x` /
`np.arctan2 y x` (value in (-π, π], `atan2 0 0 = 0`). -/
noncomputable def atan2 (y x : ℝ) : ℝ :=
  if 0 < x then Real.arctan (y / x)
  else if x < 0 then
    (if 0 ≤ y then Real.arctan (y / x) + π else Real.arctan (y / x) - π)
  else
    (if 0 < y then π / 2 else if y < 0 then -(π / 2) else 0)

/-- `nonzero_sign` from `utils.py`: `torch.where(x >= 0, 1, -1)`;
zero is mapped to +1. -/
noncomputable def nonzero_sign (x : ℝ) : ℝ := if 0 ≤ x then 1 else -1

/-- The epsilon constant `eps_addition = 2.38e-7` of `so3_to_euler`. -/
noncomputable def eps_addition : ℝ := 2.38e-7

/-- `general_case` from `so3_to_euler` in `utils.py` (per matrix). -/
noncomputable def general_case (R : M3) (r20 eps : ℝ) : Fin 3 → ℝ :=
  let theta_y := -Real.arcsin r20
  let sign_cos_theta_y := nonzero_sign (Real.cos theta_y)
  let r00 := R 0 0
  let r10 := R 1 0
  let r21 := R 2 1
  let r22 := R 2 2
  let r00e := nonzero_sign r00 * eps + r00
  let r22e := nonzero_sign r22 * eps + r22
  let theta_z := atan2 (r10 * sign_cos_theta_y) (r00e * sign_cos_theta_y)
  let theta_x := atan2 (r21 * sign_cos_theta_y) (r22e * sign_cos_theta_y)
  ![theta_x, theta_y, theta_z]

/-- `gimbal_lock` from `so3_to_euler` in `utils.py` (per matrix). -/
noncomputable def gimbal_lock (R : M3) (r20 eps : ℝ) : Fin 3 → ℝ :=
  let r01 := R 0 1
  let r02 := R 0 2
  let sign_r20 := nonzero_sign r20
  let r02e := nonzero_sign r02 * eps + r02
  let theta_x := atan2 (-sign_r20 * r01) (-sign_r20 * r02e)
  let theta_y := -sign_r20 * π / 2
  ![theta_x, theta_y, 0]

/-- `so3_to_euler` from `utils.py`, per-element semantics: the
`torch.where(gimbal_mask, ...)` select keeps the gimbal solution exactly when
`|r20| == 1` (exact equality) and the general solution otherwise. -/
noncomputable def so3_to_euler (R : M3) : Fin 3 → ℝ :=
  if |R 2 0| = 1 then gimbal_lock R (R 2 0) eps_addition
  else general_case R (R 2 0) eps_addition

/-- `torch.where(mask, a, b)`: element-wise select over equal-length batches. -/
def torch_where {α : Type} (mask : List Bool) (a b : List α) : List α :=
  (mask.zip (a.zip b)).map (fun p => if p.1 then p.2.1 else p.2.2)

/-- `so3_to_euler` from `utils.py`, batched exactly as the source computes it:
both branches are evaluated over the whole batch and then mask-selected. -/
noncomputable def so3_to_euler_batch (Rs : List M3) : List (Fin 3 → ℝ) :=
  let general_solution := Rs.map (fun R => general_case R (R 2 0) eps_addition)
  let gimbal_solution := Rs.map (fun R => gimbal_lock R (R 2 0) eps_addition)
  let is_gimbal := Rs.map (fun R => decide (|R 2 0| = 1))
  torch_where is_gimbal gimbal_solution general_solution

/-- `euler_to_so3` from `utils.py` (per triple; index 0/1/2 = x/y/z angle). -/
noncomputable def euler_to_so3 (angles : Fin 3 → ℝ) : M3 :=
  let sx := Real.sin (angles 0)
  let sy := Real.sin (angles 1)
  let sz := Real.sin (angles 2)
  let cx := Real.cos (angles 0)
  let cy := Real.cos (angles 1)
  let cz := Real.cos (angles 2)
  !![cy * cz, sx * sy * cz - cx * sz, cx * sy * cz + sx * sz;
     cy * sz, sx * sy * sz + cx * cz, cx * sy * sz - sx * cz;
     -sy, sx * cy, cx * cy]

/-- Membership in SO(3): orthonormal columns and determinant +1. -/
def isSO3 (R : M3) : Prop := R.transpose * R = 1 ∧ R.det = 1

/-- Elementary rotation about the x axis (helper for the factorization of
`euler_to_so3`). -/
noncomputable def rotX (a : ℝ) : M3 :=
  !![1, 0, 0; 0, Real.cos a, -Real.sin a; 0, Real.sin a, Real.cos a]

/-- Elementary rotation about the y axis. -/
noncomputable def rotY (a : ℝ) : M3 :=
  !![Real.cos a, 0, Real.sin a; 0, 1, 0; -Real.sin a, 0, Real.cos a]

/-- Elementary rotation about the z axis. -/
noncomputable def rotZ (a : ℝ) : M3 :=
  !![Real.cos a, -Real.sin a, 0; Real.sin a, Real.cos a, 0; 0, 0, 1]

/-- Identity rotation, used as a concrete witness input. -/
def mId : M3 := !![1, 0, 0; 0, 1, 0; 0, 0, 1]

/-- Rotation about y by -π/2 (r20 = +1), a concrete gimbal-lock input. -/
def mGimbalPlus : M3 := !![0, 0, -1; 0, 1, 0; 1, 0, 0]

/-- Rotation about y by +π/2 (r20 = -1), a concrete gimbal-lock input. -/
def mGimbalMinus : M3 := !![0, 0, 1; 0, 1, 0; -1, 0, 0]

/-- `which_to_display = probabilities > display_threshold_probability` from
`plot_pdf` in `recorder.py` (probabilities modelled as rationals). -/
def whichToDisplay (probs : List ℚ) (thr : ℚ) : List Bool :=
  probs.map (fun p => decide (thr < p))

/-- numpy/torch boolean-mask indexing `xs[mask]`. -/
def boolIndex {α : Type} (xs : List α) (mask : List Bool) : List α :=
  ((xs.zip mask).filter (fun p => p.2)).map (fun p => p.1)

/-- The `display_threshold_probability = 1e-2 / query_rotations.shape[0]`
default of `plot_pdf_panel` in `recorder.py`. -/
def panelThreshold (queryRotations : List M3) : ℚ :=
  (1 / 100) / queryRotations.length

/-- `display_rotations = torch.matmul(rotations, canonical_rotation)` from
`plot_pdf`. -/
noncomputable def displayRotations (rots : List M3) (canon : M3) : List M3 :=
  rots.map (fun R => R * canon)

/-- The projection of `plot_pdf`: per display rotation D, longitude
`np.arctan2(xyz[0], -xyz[1])` and latitude `np.arcsin(xyz[2])` with
`xyz = D[:, 0]` the first column. -/
noncomputable def plotCoords (rots : List M3) (canon : M3) : List (ℝ × ℝ) :=
  (displayRotations rots canon).map
    (fun D => (atan2 (D 0 0) (-(D 1 0)), Real.arcsin (D 2 0)))

/-- The scatter call of `plot_pdf`:
`ax.scatter(longitudes[which_to_display], latitudes[which_to_display], ...)`. -/
noncomputable def plotPdfPoints (rots : List M3) (probs : List ℚ) (thr : ℚ)
    (canon : M3) : List (ℝ × ℝ) :=
  boolIndex (plotCoords rots canon) (whichToDisplay probs thr)

/-- Euclidean norm of a 3-vector, the semantics of
`torch.norm(v, dim=-1)`. -/
noncomputable def vecNorm (v : Fin 3 → ℝ) : ℝ :=
  Real.sqrt (v 0 ^ 2 + v 1 ^ 2 + v 2 ^ 2)

/-- Semantics of the external `kornia` conversion
`rotation_matrix_to_angle_axis`: the canonical axis-angle (Rodrigues
logarithm) vector θ·axis of a rotation. -/
noncomputable def rotation_matrix_to_angle_axis (R : M3) : Fin 3 → ℝ :=
  let theta := Real.arccos ((R 0 0 + R 1 1 + R 2 2 - 1) / 2)
  fun i =>
    theta / (2 * Real.sin theta) *
      (![R 2 1 - R 1 2, R 0 2 - R 2 0, R 1 0 - R 0 1] i)

/-- Semantics of `torch.nn.functional.normalize(x, dim=-1)`: each row divided
by `max(rowNorm, 1e-12)`. -/
noncomputable def rowNormalize (R : M3) : M3 :=
  Matrix.of fun i j => R i j / max (vecNorm (fun k => R i k)) 1e-12

/-- `so3_to_axis_angle` from `utils.py`: the angle is the norm of the kornia
angle-axis vector; the second component is literally
`torch.nn.functional.normalize(so3, dim=-1)` applied to the INPUT MATRIX. -/
noncomputable def so3_to_axis_angle (R : M3) : ℝ × M3 :=
  (vecNorm (rotation_matrix_to_angle_axis R), rowNormalize R)

/-- Rotation about z by π/2, a concrete failing input for C7. -/
def mRotZ90 : M3 := !![0, -1, 0; 1, 0, 0; 0, 0, 1]

/-- Errors raised by the rendering pipeline of `figure_to_array`. -/
inductive RenderError : Type
  | encodingFailure : RenderError
  | decodeFailure : RenderError
  deriving DecidableEq

/-- `figure_to_array` from `recorder.py`, modelled with explicit failure of
the two fallible steps: `plt.savefig` (rasterize/encode to PNG bytes) and
`PIL.Image.open`/`np.array` (decode).  The source has no try/finally: the
code runs `savefig`, then `plt.close(figure)`, then decodes, and an exception
propagates immediately from the point it is raised.  Returns the result
together with the final open/closed state of the figure (`true` = still
open), starting from an open figure. -/
def figure_to_array (savefigResult : Except RenderError (List ℕ))
    (decodeResult : List ℕ → Except RenderError (List ℕ)) :
    Except RenderError (List ℕ) × Bool :=
  match savefigResult with
  | Except.error e => (Except.error e, true)
  | Except.ok buf =>
      match decodeResult buf with
      | Except.error e => (Except.error e, false)
      | Except.ok img => (Except.ok img, false)

/-- Errors arising in the `plot_pdf` pipeline on malformed shapes.
`matmulDimMismatch` models the torch RuntimeError raised by `torch.matmul`
on mismatched inner dimensions; `maskLengthMismatch` models the numpy/torch
IndexError raised by boolean-mask indexing with a wrong-length mask;
`shapeMismatchError` is the dedicated validation error named by the
specification – the source never constructs it. -/
inductive TensorError : Type
  | matmulDimMismatch : ℕ → ℕ → TensorError
  | maskLengthMismatch : ℕ → ℕ → TensorError
  | shapeMismatchError : TensorError
  deriving DecidableEq

/-- A dynamically-shaped real matrix (run-time shape, as in torch). -/
structure DynMat where
  rows : ℕ
  cols : ℕ
  entry : ℕ → ℕ → ℝ

/-- `torch.matmul` on dynamically-shaped matrices: checks inner dimensions at
run time, as torch does, and raises otherwise. -/
noncomputable def dynMatmul (A B : DynMat) : Except TensorError DynMat :=
  if A.cols = B.rows then
    Except.ok ⟨A.rows, B.cols,
      fun i j => ∑ k ∈ Finset.range A.cols, A.entry i k * B.entry k j⟩
  else Except.error (TensorError.matmulDimMismatch A.cols B.rows)

/-- Monadic map over `Except`: apply `f` left to right, propagating the first
raised error (the semantics of a Python loop/vectorized op that raises). -/
noncomputable def mapExcept {α β ε : Type} (f : α → Except ε β) :
    List α → Except ε (List β)
  | [] => Except.ok []
  | a :: as =>
      match f a with
      | Except.error e => Except.error e
      | Except.ok b =>
          match mapExcept f as with
          | Except.error e => Except.error e
          | Except.ok bs => Except.ok (b :: bs)

/-- The shape-relevant pipeline of `plot_pdf` in `recorder.py`, in source
order: (1) `display_rotations = torch.matmul(rotations, canonical_rotation)`;
(2) longitudes/latitudes from the first column; (3) the boolean mask
`probabilities > display_threshold_probability`; (4) the masked scatter
`longitudes[which_to_display]`, which is where numpy raises if the mask
length differs from the coordinate count.  The source performs no shape
validation of its own before these computations. -/
noncomputable def plotPdfChecked (rots : List DynMat) (probs : List ℚ)
    (thr : ℚ) (canon : DynMat) : Except TensorError (List (ℝ × ℝ)) :=
  match mapExcept (fun R => dynMatmul R canon) rots with
  | Except.error e => Except.error e
  | Except.ok disp =>
      let coords := disp.map
        (fun D => (atan2 (D.entry 0 0) (-(D.entry 1 0)),
          Real.arcsin (D.entry 2 0)))
      let mask := whichToDisplay probs thr
      if mask.length = coords.length then Except.ok (boolIndex coords mask)
      else Except.error (TensorError.maskLengthMismatch mask.length coords.length)

/-- A 4×4 matrix, the malformed rotation input of C8. -/
noncomputable def dynM4 : DynMat := ⟨4, 4, fun _ _ => 1⟩

/-- The 3×3 identity as a dynamic matrix (`torch.eye(3)`, the default
canonical rotation of `plot_pdf`). -/
noncomputable def dynEye3 : DynMat := ⟨3, 3, fun i j => if i = j then 1 else 0⟩

/-- Entrywise closeness of two matrices within a tolerance, the meaning of
"equal within a floating tolerance" in the round-trip property. -/
def matNear (A B : M3) (tol : ℝ) : Prop := ∀ i j, |A i j - B i j| ≤ tol

/-- sin component of a rational near-gimbal rotation: s = (10^18-1)/(10^18+1),
so that |r20| = s is very close to, but not exactly, 1. -/
noncomputable def cexS : ℝ := (10 ^ 18 - 1) / (10 ^ 18 + 1)

/-- cos component of the near-gimbal rotation: c = 2*10^9/(10^18+1) ≈ 2e-9,
far smaller than the 2.38e-7 epsilon the converter adds to r00. -/
noncomputable def cexC : ℝ := 2 * 10 ^ 9 / (10 ^ 18 + 1)

/-- The near-gimbal counterexample rotation Rz(π/2)·Ry(θ) with sin θ = cexS:
an exact element of SO(3) whose round trip fails the 1e-5 tolerance. -/
noncomputable def mCex : M3 := !![0, -1, 0; cexC, 0, cexS; -cexS, 0, cexC]

lemma sqrt_one_add_div_sq (x y : ℝ) (hx : x ≠ 0) :
    Real.sqrt (1 + (y / x) ^ 2) = Real.sqrt (x ^ 2 + y ^ 2) / |x| := by
  have h1 : 1 + (y / x) ^ 2 = (x ^ 2 + y ^ 2) / x ^ 2 := by
    field_simp
  rw [h1, Real.sqrt_div (by positivity), Real.sqrt_sq_eq_abs]

lemma cos_atan2 (y x : ℝ) (h : x ≠ 0 ∨ y ≠ 0) :
    Real.cos (atan2 y x) = x / Real.sqrt (x ^ 2 + y ^ 2) := by
  have hs : 0 < Real.sqrt (x ^ 2 + y ^ 2) := by
    rcases h with h | h
    · exact Real.sqrt_pos.mpr (by positivity)
    · exact Real.sqrt_pos.mpr (by positivity)
  rcases lt_trichotomy x 0 with hx | hx | hx
  · have hxne : x ≠ 0 := ne_of_lt hx
    have key : Real.cos (Real.arctan (y / x)) = -x / Real.sqrt (x ^ 2 + y ^ 2) := by
      rw [Real.cos_arctan, sqrt_one_add_div_sq x y hxne, abs_of_neg hx]
      field_simp
    rw [atan2, if_neg (by linarith), if_pos hx]
    by_cases hy : 0 ≤ y
    · rw [if_pos hy, Real.cos_add_pi, key]
      field_simp
    · rw [if_neg hy, Real.cos_sub_pi, key]
      field_simp
  · subst hx
    rw [atan2, if_neg (by linarith), if_neg (by linarith)]
    rcases h with h | h
    · exact absurd rfl h
    · rcases lt_trichotomy y 0 with hy | hy | hy
      · rw [if_neg (by linarith), if_pos hy]
        simp
      · exact absurd hy h
      · rw [if_pos hy]
        simp
  · rw [atan2, if_pos hx, Real.cos_arctan, sqrt_one_add_div_sq x y (ne_of_gt hx),
      abs_of_pos hx]
    field_simp

lemma sin_atan2 (y x : ℝ) (h : x ≠ 0 ∨ y ≠ 0) :
    Real.sin (atan2 y x) = y / Real.sqrt (x ^ 2 + y ^ 2) := by
  have hs : 0 < Real.sqrt (x ^ 2 + y ^ 2) := by
    rcases h with h | h
    · exact Real.sqrt_pos.mpr (by positivity)
    · exact Real.sqrt_pos.mpr (by positivity)
  rcases lt_trichotomy x 0 with hx | hx | hx
  · have hxne : x ≠ 0 := ne_of_lt hx
    have key : Real.sin (Real.arctan (y / x)) = -y / Real.sqrt (x ^ 2 + y ^ 2) := by
      rw [Real.sin_arctan, sqrt_one_add_div_sq x y hxne, abs_of_neg hx]
      field_simp
      ring
    rw [atan2, if_neg (by linarith), if_pos hx]
    by_cases hy : 0 ≤ y
    · rw [if_pos hy, Real.sin_add_pi, key]
      field_simp
    · rw [if_neg hy, Real.sin_sub_pi, key]
      field_simp
  · subst hx
    rw [atan2, if_neg (by linarith), if_neg (by linarith)]
    rcases h with h | h
    · exact absurd rfl h
    · rcases lt_trichotomy y 0 with hy | hy | hy
      · rw [if_neg (by linarith), if_pos hy]
        rw [Real.sin_neg, Real.sin_pi_div_two]
        rw [show (0:ℝ)^2 + y^2 = y^2 by ring, Real.sqrt_sq_eq_abs, abs_of_neg hy]
        field_simp
      · exact absurd hy h
      · rw [if_pos hy]
        rw [Real.sin_pi_div_two]
        rw [show (0:ℝ)^2 + y^2 = y^2 by ring, Real.sqrt_sq_eq_abs, abs_of_pos hy]
        field_simp
  · rw [atan2, if_pos hx, Real.sin_arctan, sqrt_one_add_div_sq x y (ne_of_gt hx),
      abs_of_pos hx]
    field_simp

lemma arctan_le_self_of_nonneg (t : ℝ) (ht : 0 ≤ t) : Real.arctan t ≤ t := by
  have h1 : 0 ≤ Real.arctan t := by
    have := Real.arctan_strictMono.monotone ht
    simpa [Real.arctan_zero] using this
  have h2 : Real.arctan t < π / 2 := Real.arctan_lt_pi_div_two t
  calc Real.arctan t ≤ Real.tan (Real.arctan t) := Real.le_tan h1 h2
    _ = t := Real.tan_arctan t

lemma abs_arctan_le_abs (t : ℝ) : |Real.arctan t| ≤ |t| := by
  rcases le_or_lt 0 t with ht | ht
  · rw [abs_of_nonneg ht, abs_of_nonneg]
    · exact arctan_le_self_of_nonneg t ht
    · have := Real.arctan_strictMono.monotone ht
      simpa [Real.arctan_zero] using this
  · have h1 : Real.arctan t < 0 := by
      have := Real.arctan_strictMono ht
      simpa [Real.arctan_zero] using this
    rw [abs_of_neg ht, abs_of_neg h1, ← Real.arctan_neg]
    exact arctan_le_self_of_nonneg (-t) (by linarith)

lemma arctan_sub_arctan (u v : ℝ) (huv : 0 ≤ u * v) :
    Real.arctan u - Real.arctan v = Real.arctan ((u - v) / (1 + u * v)) := by
  have h : u * (-v) < 1 := by nlinarith
  have := Real.arctan_add h
  rw [Real.arctan_neg] at this
  rw [sub_eq_add_neg, this]
  congr 1
  ring_nf

lemma abs_arctan_sub_arctan_le (u v : ℝ) (huv : 0 ≤ u * v) :
    |Real.arctan u - Real.arctan v| ≤ |u - v| / (1 + u * v) := by
  rw [arctan_sub_arctan u v huv]
  calc |Real.arctan ((u - v) / (1 + u * v))| ≤ |(u - v) / (1 + u * v)| :=
        abs_arctan_le_abs _
    _ = |u - v| / |1 + u * v| := by rw [abs_div]
    _ = |u - v| / (1 + u * v) := by
        rw [abs_of_pos (show (0:ℝ) < 1 + u * v by linarith)]

lemma arctan_div_sub_div_bound (x x2 y c eps : ℝ) (heps : 0 < eps) (hc : 0 < c)
    (hxy : x ^ 2 + y ^ 2 = c ^ 2) (hxx2 : 0 < x2 * x) (hx2rel : x ^ 2 ≤ x2 * x)
    (habs : |x - x2| = eps) :
    |Real.arctan (y / x2) - Real.arctan (y / x)| ≤ eps / c := by
  have hyc : |y| ≤ c := by
    rw [← Real.sqrt_sq hc.le, ← Real.sqrt_sq_eq_abs]
    exact Real.sqrt_le_sqrt (by nlinarith)
  have hxne : x ≠ 0 := by
    intro h
    rw [h, mul_zero] at hxx2
    exact lt_irrefl 0 hxx2
  have hx2ne : x2 ≠ 0 := by
    intro h
    rw [h, zero_mul] at hxx2
    exact lt_irrefl 0 hxx2
  have huv : 0 ≤ y / x2 * (y / x) := by
    rw [div_mul_div_comm]
    exact div_nonneg (mul_self_nonneg y) hxx2.le
  have hden : 0 < x2 * x + y ^ 2 := by nlinarith
  have hsub : y / x2 - y / x = y * (x - x2) / (x2 * x) := by
    field_simp
    ring
  have hB : 1 + y / x2 * (y / x) = (x2 * x + y ^ 2) / (x2 * x) := by
    field_simp
    ring
  calc |Real.arctan (y / x2) - Real.arctan (y / x)|
      ≤ |y / x2 - y / x| / (1 + y / x2 * (y / x)) :=
        abs_arctan_sub_arctan_le _ _ huv
    _ = (|y| * eps / (x2 * x)) / ((x2 * x + y ^ 2) / (x2 * x)) := by
        rw [hsub, hB, abs_div, abs_mul, habs, abs_of_pos hxx2]
    _ = |y| * eps / (x2 * x + y ^ 2) := by
        have h1 : (x2 * x) ≠ 0 := ne_of_gt hxx2
        have h2 : x2 * x + y ^ 2 ≠ 0 := ne_of_gt hden
        field_simp
    _ ≤ eps / c := by
        rw [div_le_div_iff₀ hden hc]
        have h3 : 0 ≤ eps * c * (c - |y|) :=
          mul_nonneg (mul_nonneg heps.le hc.le) (sub_nonneg.mpr hyc)
        have h4 : 0 ≤ eps * (x2 * x - x ^ 2) :=
          mul_nonneg heps.le (sub_nonneg.mpr hx2rel)
        have h5 : eps * (x ^ 2 + y ^ 2) = eps * c ^ 2 := by rw [hxy]
        nlinarith [h3, h4, h5]

lemma atan2_perturb (x y c eps : ℝ) (heps : 0 < eps) (hc : 0 < c)
    (hxy : x ^ 2 + y ^ 2 = c ^ 2) :
    |atan2 y (nonzero_sign x * eps + x) - atan2 y x| ≤ eps / c := by
  rcases lt_trichotomy x 0 with hx | hx | hx
  · have hsign : nonzero_sign x = -1 := by
      rw [nonzero_sign, if_neg (by linarith)]
    rw [hsign]
    set x2 := -1 * eps + x with hx2def
    have hx2 : x2 < 0 := by rw [hx2def]; linarith
    have hxx2 : 0 < x2 * x := mul_pos_of_neg_of_neg hx2 hx
    have key := arctan_div_sub_div_bound x x2 y c eps heps hc hxy hxx2
      (by nlinarith) (by rw [hx2def, abs_of_pos (by linarith : (0:ℝ) < x - (-1 * eps + x))]; ring)
    have hbr : ∀ x0 : ℝ, x0 < 0 → atan2 y x0 =
        (if 0 ≤ y then Real.arctan (y / x0) + π else Real.arctan (y / x0) - π) := by
      intro x0 hx0
      rw [atan2, if_neg (by linarith), if_pos hx0]
    rw [hbr x2 hx2, hbr x hx]
    by_cases hy : 0 ≤ y
    · rw [if_pos hy, if_pos hy]
      simpa using key
    · rw [if_neg hy, if_neg hy]
      simpa using key
  · subst hx
    have hy2 : y ^ 2 = c ^ 2 := by linarith [hxy]
    have hsign : nonzero_sign (0:ℝ) = 1 := by
      rw [nonzero_sign, if_pos le_rfl]
    rw [hsign]
    have harg : (1 : ℝ) * eps + 0 = eps := by ring
    rw [harg]
    rcases lt_trichotomy y 0 with hy | hy | hy
    · have hyc2 : -y = c := by
        have := sq_abs y
        rw [abs_of_neg hy] at this
        nlinarith
      have h1 : atan2 y eps = Real.arctan (y / eps) := by
        rw [atan2, if_pos heps]
      have h2 : atan2 y 0 = -(π / 2) := by
        rw [atan2]
        norm_num [hy, not_lt.mpr hy.le]
      have hinv : Real.arctan (eps / y) = -(π / 2) - Real.arctan (y / eps) := by
        have hneg : y / eps < 0 := div_neg_of_neg_of_pos hy heps
        have := Real.arctan_inv_of_neg hneg
        rwa [show (y / eps)⁻¹ = eps / y by field_simp] at this
      rw [h1, h2]
      have heq : Real.arctan (y / eps) - -(π / 2) = -Real.arctan (eps / y) := by
        rw [hinv]; ring
      rw [heq, abs_neg]
      calc |Real.arctan (eps / y)| ≤ |eps / y| := abs_arctan_le_abs _
        _ = eps / c := by
            rw [abs_div, abs_of_pos heps, abs_of_neg hy, hyc2]
    · exfalso
      rw [hy] at hy2
      nlinarith
    · have hyc2 : y = c := by nlinarith
      have h1 : atan2 y eps = Real.arctan (y / eps) := by
        rw [atan2, if_pos heps]
      have h2 : atan2 y 0 = π / 2 := by
        rw [atan2]
        norm_num [hy, not_lt.mpr hy.le]
      have hinv : Real.arctan (eps / y) = π / 2 - Real.arctan (y / eps) := by
        have hpos : 0 < y / eps := div_pos hy heps
        have := Real.arctan_inv_of_pos hpos
        rwa [show (y / eps)⁻¹ = eps / y by field_simp] at this
      rw [h1, h2]
      have heq : Real.arctan (y / eps) - π / 2 = -Real.arctan (eps / y) := by
        rw [hinv]; ring
      rw [heq, abs_neg]
      calc |Real.arctan (eps / y)| ≤ |eps / y| := abs_arctan_le_abs _
        _ = eps / c := by
            rw [abs_div, abs_of_pos heps, abs_of_pos hy, hyc2]
  · have hsign : nonzero_sign x = 1 := by
      rw [nonzero_sign, if_pos (by linarith)]
    rw [hsign]
    set x2 := 1 * eps + x with hx2def
    have hx2 : 0 < x2 := by rw [hx2def]; linarith
    have hxx2 : 0 < x2 * x := mul_pos hx2 hx
    have key := arctan_div_sub_div_bound x x2 y c eps heps hc hxy hxx2
      (by nlinarith) (by rw [hx2def, abs_of_neg (by linarith : x - (1 * eps + x) < 0)]; ring)
    have hbr : ∀ x0 : ℝ, 0 < x0 → atan2 y x0 = Real.arctan (y / x0) := by
      intro x0 hx0
      rw [atan2, if_pos hx0]
    rw [hbr x2 hx2, hbr x hx]
    exact key

lemma abs_sin_sub_sin_le (a b : ℝ) : |Real.sin a - Real.sin b| ≤ |a - b| := by
  rw [Real.sin_sub_sin]
  calc |2 * Real.sin ((a - b) / 2) * Real.cos ((a + b) / 2)|
      = 2 * |Real.sin ((a - b) / 2)| * |Real.cos ((a + b) / 2)| := by
        rw [abs_mul, abs_mul]
        norm_num
    _ ≤ 2 * |(a - b) / 2| * 1 := by
        apply mul_le_mul
        · exact mul_le_mul_of_nonneg_left (Real.abs_sin_le_abs) (by norm_num)
        · exact Real.abs_cos_le_one _
        · exact abs_nonneg _
        · positivity
    _ = |a - b| := by
        rw [abs_div]
        norm_num
        ring

lemma abs_cos_sub_cos_le (a b : ℝ) : |Real.cos a - Real.cos b| ≤ |a - b| := by
  rw [Real.cos_sub_cos]
  calc |-2 * Real.sin ((a + b) / 2) * Real.sin ((a - b) / 2)|
      = 2 * |Real.sin ((a + b) / 2)| * |Real.sin ((a - b) / 2)| := by
        rw [abs_mul, abs_mul]
        norm_num
    _ ≤ 2 * 1 * |(a - b) / 2| := by
        apply mul_le_mul
        · exact mul_le_mul_of_nonneg_left (Real.abs_sin_le_one _) (by norm_num)
        · exact Real.abs_sin_le_abs
        · exact abs_nonneg _
        · positivity
    _ = |a - b| := by
        rw [abs_div]
        norm_num
        ring

lemma abs_mul_sub_mul (a b a2 b2 : ℝ) (ha : |a| ≤ 1) (hb2 : |b2| ≤ 1) :
    |a * b - a2 * b2| ≤ |b - b2| + |a - a2| := by
  calc |a * b - a2 * b2| = |a * (b - b2) + (a - a2) * b2| := by ring_nf
    _ ≤ |a * (b - b2)| + |(a - a2) * b2| := abs_add _ _
    _ = |a| * |b - b2| + |a - a2| * |b2| := by rw [abs_mul, abs_mul]
    _ ≤ 1 * |b - b2| + |a - a2| * 1 := by
        apply add_le_add
        · exact mul_le_mul_of_nonneg_right ha (abs_nonneg _)
        · exact mul_le_mul_of_nonneg_left hb2 (abs_nonneg _)
    _ = |b - b2| + |a - a2| := by ring

lemma abs_sub_le_add (p q : ℝ) : |p - q| ≤ |p| + |q| := by
  calc |p - q| ≤ |p - 0| + |0 - q| := abs_sub_le p 0 q
    _ = |p| + |q| := by simp

lemma triple_prod_bound (a b c a2 c2 : ℝ) (ha : |a| ≤ 1) (hb : |b| ≤ 1)
    (hc2 : |c2| ≤ 1) :
    |a * b * c - a2 * (b * c2)| ≤ |a - a2| + |c - c2| := by
  have h1 : |a * (b * c) - a2 * (b * c2)| ≤ |b * c - b * c2| + |a - a2| :=
    abs_mul_sub_mul a (b * c) a2 (b * c2) ha
      (by rw [abs_mul]; exact mul_le_one₀ hb (abs_nonneg _) hc2)
  have h2 : |b * c - b * c2| ≤ |c - c2| + |b - b| :=
    abs_mul_sub_mul b c b c2 hb hc2
  have h3 : |a * b * c - a2 * (b * c2)| = |a * (b * c) - a2 * (b * c2)| := by
    ring_nf
  rw [h3]
  simp only [sub_self, abs_zero, add_zero] at h2
  linarith

lemma euler_apply_00 (a : Fin 3 → ℝ) :
    euler_to_so3 a 0 0 = Real.cos (a 1) * Real.cos (a 2) := by simp [euler_to_so3]

lemma euler_apply_01 (a : Fin 3 → ℝ) :
    euler_to_so3 a 0 1 =
      Real.sin (a 0) * Real.sin (a 1) * Real.cos (a 2) -
        Real.cos (a 0) * Real.sin (a 2) := by simp [euler_to_so3]

lemma euler_apply_02 (a : Fin 3 → ℝ) :
    euler_to_so3 a 0 2 =
      Real.cos (a 0) * Real.sin (a 1) * Real.cos (a 2) +
        Real.sin (a 0) * Real.sin (a 2) := by simp [euler_to_so3]

lemma euler_apply_10 (a : Fin 3 → ℝ) :
    euler_to_so3 a 1 0 = Real.cos (a 1) * Real.sin (a 2) := by simp [euler_to_so3]

lemma euler_apply_11 (a : Fin 3 → ℝ) :
    euler_to_so3 a 1 1 =
      Real.sin (a 0) * Real.sin (a 1) * Real.sin (a 2) +
        Real.cos (a 0) * Real.cos (a 2) := by simp [euler_to_so3]

lemma euler_apply_12 (a : Fin 3 → ℝ) :
    euler_to_so3 a 1 2 =
      Real.cos (a 0) * Real.sin (a 1) * Real.sin (a 2) -
        Real.sin (a 0) * Real.cos (a 2) := by simp [euler_to_so3]

lemma euler_apply_20 (a : Fin 3 → ℝ) :
    euler_to_so3 a 2 0 = -Real.sin (a 1) := by simp [euler_to_so3]

lemma euler_apply_21 (a : Fin 3 → ℝ) :
    euler_to_so3 a 2 1 = Real.sin (a 0) * Real.cos (a 1) := by simp [euler_to_so3]

lemma euler_apply_22 (a : Fin 3 → ℝ) :
    euler_to_so3 a 2 2 = Real.cos (a 0) * Real.cos (a 1) := by simp [euler_to_so3]

lemma euler_entry_lipschitz (x y z x2 z2 : ℝ) (i j : Fin 3) :
    |euler_to_so3 ![x, y, z] i j - euler_to_so3 ![x2, y, z2] i j| ≤
      2 * |x - x2| + 2 * |z - z2| := by
  have hsx := Real.abs_sin_le_one x
  have hsx2 := Real.abs_sin_le_one x2
  have hsy := Real.abs_sin_le_one y
  have hsz := Real.abs_sin_le_one z
  have hsz2 := Real.abs_sin_le_one z2
  have hcx := Real.abs_cos_le_one x
  have hcx2 := Real.abs_cos_le_one x2
  have hcy := Real.abs_cos_le_one y
  have hcz := Real.abs_cos_le_one z
  have hcz2 := Real.abs_cos_le_one z2
  have hdsx : |Real.sin x - Real.sin x2| ≤ |x - x2| := abs_sin_sub_sin_le x x2
  have hdcx : |Real.cos x - Real.cos x2| ≤ |x - x2| := abs_cos_sub_cos_le x x2
  have hdsz : |Real.sin z - Real.sin z2| ≤ |z - z2| := abs_sin_sub_sin_le z z2
  have hdcz : |Real.cos z - Real.cos z2| ≤ |z - z2| := abs_cos_sub_cos_le z z2
  have hax : (0:ℝ) ≤ |x - x2| := abs_nonneg _
  have haz : (0:ℝ) ≤ |z - z2| := abs_nonneg _
  have ha0 : (![x, y, z] : Fin 3 → ℝ) 0 = x := rfl
  have ha1 : (![x, y, z] : Fin 3 → ℝ) 1 = y := rfl
  have ha2 : (![x, y, z] : Fin 3 → ℝ) 2 = z := rfl
  have hb0 : (![x2, y, z2] : Fin 3 → ℝ) 0 = x2 := rfl
  have hb1 : (![x2, y, z2] : Fin 3 → ℝ) 1 = y := rfl
  have hb2 : (![x2, y, z2] : Fin 3 → ℝ) 2 = z2 := rfl
  fin_cases i <;> fin_cases j
  · -- (0,0) cy*cz
    show |euler_to_so3 ![x, y, z] 0 0 - euler_to_so3 ![x2, y, z2] 0 0| ≤
      2 * |x - x2| + 2 * |z - z2|
    rw [euler_apply_00, euler_apply_00, ha1, ha2, hb1, hb2]
    have := abs_mul_sub_mul (Real.cos y) (Real.cos z) (Real.cos y) (Real.cos z2) hcy hcz2
    simp only [sub_self, abs_zero, add_zero] at this
    linarith
  · -- (0,1) sx*sy*cz - cx*sz
    show |euler_to_so3 ![x, y, z] 0 1 - euler_to_so3 ![x2, y, z2] 0 1| ≤
      2 * |x - x2| + 2 * |z - z2|
    rw [euler_apply_01, euler_apply_01, ha0, ha1, ha2, hb0, hb1, hb2]
    have key : Real.sin x * Real.sin y * Real.cos z - Real.cos x * Real.sin z -
        (Real.sin x2 * Real.sin y * Real.cos z2 - Real.cos x2 * Real.sin z2) =
        (Real.sin x * Real.sin y * Real.cos z - Real.sin x2 * (Real.sin y * Real.cos z2)) -
          (Real.cos x * Real.sin z - Real.cos x2 * Real.sin z2) := by ring
    rw [key]
    have h1 := triple_prod_bound (Real.sin x) (Real.sin y) (Real.cos z)
      (Real.sin x2) (Real.cos z2) hsx hsy hcz2
    have h2 := abs_mul_sub_mul (Real.cos x) (Real.sin z) (Real.cos x2) (Real.sin z2) hcx hsz2
    have h3 := abs_sub_le_add
      (Real.sin x * Real.sin y * Real.cos z - Real.sin x2 * (Real.sin y * Real.cos z2))
      (Real.cos x * Real.sin z - Real.cos x2 * Real.sin z2)
    linarith
  · -- (0,2) cx*sy*cz + sx*sz
    show |euler_to_so3 ![x, y, z] 0 2 - euler_to_so3 ![x2, y, z2] 0 2| ≤
      2 * |x - x2| + 2 * |z - z2|
    rw [euler_apply_02, euler_apply_02, ha0, ha1, ha2, hb0, hb1, hb2]
    have key : Real.cos x * Real.sin y * Real.cos z + Real.sin x * Real.sin z -
        (Real.cos x2 * Real.sin y * Real.cos z2 + Real.sin x2 * Real.sin z2) =
        (Real.cos x * Real.sin y * Real.cos z - Real.cos x2 * (Real.sin y * Real.cos z2)) -
          (Real.sin x2 * Real.sin z2 - Real.sin x * Real.sin z) := by ring
    rw [key]
    have h1 := triple_prod_bound (Real.cos x) (Real.sin y) (Real.cos z)
      (Real.cos x2) (Real.cos z2) hcx hsy hcz2
    have h2 := abs_mul_sub_mul (Real.sin x2) (Real.sin z2) (Real.sin x) (Real.sin z) hsx2 hsz
    have h3 := abs_sub_le_add
      (Real.cos x * Real.sin y * Real.cos z - Real.cos x2 * (Real.sin y * Real.cos z2))
      (Real.sin x2 * Real.sin z2 - Real.sin x * Real.sin z)
    have h4 : |Real.sin z2 - Real.sin z| ≤ |z - z2| := by
      rw [abs_sub_comm]
      exact hdsz
    have h5 : |Real.sin x2 - Real.sin x| ≤ |x - x2| := by
      rw [abs_sub_comm]
      exact hdsx
    linarith
  · -- (1,0) cy*sz
    show |euler_to_so3 ![x, y, z] 1 0 - euler_to_so3 ![x2, y, z2] 1 0| ≤
      2 * |x - x2| + 2 * |z - z2|
    rw [euler_apply_10, euler_apply_10, ha1, ha2, hb1, hb2]
    have := abs_mul_sub_mul (Real.cos y) (Real.sin z) (Real.cos y) (Real.sin z2) hcy hsz2
    simp only [sub_self, abs_zero, add_zero] at this
    linarith
  · -- (1,1) sx*sy*sz + cx*cz
    show |euler_to_so3 ![x, y, z] 1 1 - euler_to_so3 ![x2, y, z2] 1 1| ≤
      2 * |x - x2| + 2 * |z - z2|
    rw [euler_apply_11, euler_apply_11, ha0, ha1, ha2, hb0, hb1, hb2]
    have key : Real.sin x * Real.sin y * Real.sin z + Real.cos x * Real.cos z -
        (Real.sin x2 * Real.sin y * Real.sin z2 + Real.cos x2 * Real.cos z2) =
        (Real.sin x * Real.sin y * Real.sin z - Real.sin x2 * (Real.sin y * Real.sin z2)) -
          (Real.cos x2 * Real.cos z2 - Real.cos x * Real.cos z) := by ring
    rw [key]
    have h1 := triple_prod_bound (Real.sin x) (Real.sin y) (Real.sin z)
      (Real.sin x2) (Real.sin z2) hsx hsy hsz2
    have h2 := abs_mul_sub_mul (Real.cos x2) (Real.cos z2) (Real.cos x) (Real.cos z) hcx2 hcz
    have h3 := abs_sub_le_add
      (Real.sin x * Real.sin y * Real.sin z - Real.sin x2 * (Real.sin y * Real.sin z2))
      (Real.cos x2 * Real.cos z2 - Real.cos x * Real.cos z)
    have h4 : |Real.cos z2 - Real.cos z| ≤ |z - z2| := by
      rw [abs_sub_comm]
      exact hdcz
    have h5 : |Real.cos x2 - Real.cos x| ≤ |x - x2| := by
      rw [abs_sub_comm]
      exact hdcx
    linarith
  · -- (1,2) cx*sy*sz - sx*cz
    show |euler_to_so3 ![x, y, z] 1 2 - euler_to_so3 ![x2, y, z2] 1 2| ≤
      2 * |x - x2| + 2 * |z - z2|
    rw [euler_apply_12, euler_apply_12, ha0, ha1, ha2, hb0, hb1, hb2]
    have key : Real.cos x * Real.sin y * Real.sin z - Real.sin x * Real.cos z -
        (Real.cos x2 * Real.sin y * Real.sin z2 - Real.sin x2 * Real.cos z2) =
        (Real.cos x * Real.sin y * Real.sin z - Real.cos x2 * (Real.sin y * Real.sin z2)) -
          (Real.sin x * Real.cos z - Real.sin x2 * Real.cos z2) := by ring
    rw [key]
    have h1 := triple_prod_bound (Real.cos x) (Real.sin y) (Real.sin z)
      (Real.cos x2) (Real.sin z2) hcx hsy hsz2
    have h2 := abs_mul_sub_mul (Real.sin x) (Real.cos z) (Real.sin x2) (Real.cos z2) hsx hcz2
    have h3 := abs_sub_le_add
      (Real.cos x * Real.sin y * Real.sin z - Real.cos x2 * (Real.sin y * Real.sin z2))
      (Real.sin x * Real.cos z - Real.sin x2 * Real.cos z2)
    linarith
  · -- (2,0) -sy
    show |euler_to_so3 ![x, y, z] 2 0 - euler_to_so3 ![x2, y, z2] 2 0| ≤
      2 * |x - x2| + 2 * |z - z2|
    rw [euler_apply_20, euler_apply_20, ha1, hb1]
    simp only [sub_self, abs_zero]
    positivity
  · -- (2,1) sx*cy
    show |euler_to_so3 ![x, y, z] 2 1 - euler_to_so3 ![x2, y, z2] 2 1| ≤
      2 * |x - x2| + 2 * |z - z2|
    rw [euler_apply_21, euler_apply_21, ha0, ha1, hb0, hb1]
    have := abs_mul_sub_mul (Real.sin x) (Real.cos y) (Real.sin x2) (Real.cos y) hsx hcy
    simp only [sub_self, abs_zero, zero_add] at this
    linarith
  · -- (2,2) cx*cy
    show |euler_to_so3 ![x, y, z] 2 2 - euler_to_so3 ![x2, y, z2] 2 2| ≤
      2 * |x - x2| + 2 * |z - z2|
    rw [euler_apply_22, euler_apply_22, ha0, ha1, hb0, hb1]
    have := abs_mul_sub_mul (Real.cos x) (Real.cos y) (Real.cos x2) (Real.cos y) hcx hcy
    simp only [sub_self, abs_zero, zero_add] at this
    linarith

lemma adjugate_eq_transpose (R : M3) (hR : isSO3 R) :
    R.adjugate = R.transpose := by
  have hRRt : R * R.transpose = 1 := Matrix.mul_eq_one_comm.mp hR.1
  have hadjmul : R * R.adjugate = 1 := by
    rw [Matrix.mul_adjugate, hR.2, one_smul]
  calc R.adjugate = 1 * R.adjugate := (one_mul _).symm
    _ = (R.transpose * R) * R.adjugate := by rw [hR.1]
    _ = R.transpose * (R * R.adjugate) := by rw [Matrix.mul_assoc]
    _ = R.transpose := by rw [hadjmul, Matrix.mul_one]

lemma so3_equations (R : M3) (hR : isSO3 R) :
    (R 0 0 ^ 2 + R 1 0 ^ 2 + R 2 0 ^ 2 = 1) ∧
      (R 0 0 * R 0 1 + R 1 0 * R 1 1 + R 2 0 * R 2 1 = 0) ∧
      (R 0 0 * R 0 2 + R 1 0 * R 1 2 + R 2 0 * R 2 2 = 0) ∧
      (R 2 0 ^ 2 + R 2 1 ^ 2 + R 2 2 ^ 2 = 1) ∧
      (R 2 2 = R 0 0 * R 1 1 - R 0 1 * R 1 0) ∧
      (R 2 1 = R 0 2 * R 1 0 - R 0 0 * R 1 2) := by
  have hRRt : R * R.transpose = 1 := Matrix.mul_eq_one_comm.mp hR.1
  have h00 := congrFun (congrFun hR.1 0) 0
  have h01 := congrFun (congrFun hR.1 0) 1
  have h02 := congrFun (congrFun hR.1 0) 2
  have h22 := congrFun (congrFun hRRt 2) 2
  have hadj := adjugate_eq_transpose R hR
  rw [Matrix.adjugate_fin_three] at hadj
  have hc22 := congrFun (congrFun hadj 2) 2
  have hc12 := congrFun (congrFun hadj 1) 2
  simp only [Matrix.mul_apply, Matrix.transpose_apply, Fin.sum_univ_three,
    Matrix.one_apply, Matrix.cons_val_zero, Matrix.cons_val_one, Matrix.head_cons,
    Matrix.cons_val_two, Matrix.tail_cons, Matrix.cons_val', Matrix.empty_val',
    Matrix.cons_val_fin_one, Matrix.of_apply, Matrix.vecHead, Matrix.vecTail,
    Function.comp] at h00 h01 h02 h22 hc22 hc12
  norm_num [Fin.ext_iff] at h00 h01 h02 h22 hc22 hc12
  refine ⟨by nlinarith [h00], by nlinarith [h01], by nlinarith [h02],
    by nlinarith [h22], by linarith [hc22], by linarith [hc12]⟩

lemma so3_exact_reconstruction (R : M3) (hR : isSO3 R) (c : ℝ)
    (hc : c = Real.sqrt (1 - R 2 0 ^ 2)) (hcpos : 0 < c) :
    euler_to_so3
        ![atan2 (R 2 1) (R 2 2), -Real.arcsin (R 2 0), atan2 (R 1 0) (R 0 0)] =
      R := by
  obtain ⟨hcol0, hcol01, hcol02, hrow2, hcof22, hcof21⟩ := so3_equations R hR
  have hr20sq : R 2 0 ^ 2 ≤ 1 := by
    nlinarith [sq_nonneg (R 0 0), sq_nonneg (R 1 0)]
  have hcsq : c ^ 2 = 1 - R 2 0 ^ 2 := by
    rw [hc, Real.sq_sqrt (by linarith)]
  have hcc : c ^ 2 + R 2 0 ^ 2 = 1 := by linarith
  have hcne : c ≠ 0 := ne_of_gt hcpos
  have h2122 : R 2 2 ^ 2 + R 2 1 ^ 2 = c ^ 2 := by linarith
  have h0010 : R 0 0 ^ 2 + R 1 0 ^ 2 = c ^ 2 := by linarith
  have hx_ne : R 2 2 ≠ 0 ∨ R 2 1 ≠ 0 := by
    by_contra hcon
    push_neg at hcon
    rw [hcon.1, hcon.2] at h2122
    nlinarith [hcpos]
  have hz_ne : R 0 0 ≠ 0 ∨ R 1 0 ≠ 0 := by
    by_contra hcon
    push_neg at hcon
    rw [hcon.1, hcon.2] at h0010
    nlinarith [hcpos]
  have hsqx : Real.sqrt (R 2 2 ^ 2 + R 2 1 ^ 2) = c := by
    rw [h2122, Real.sqrt_sq hcpos.le]
  have hsqz : Real.sqrt (R 0 0 ^ 2 + R 1 0 ^ 2) = c := by
    rw [h0010, Real.sqrt_sq hcpos.le]
  have hsinx : Real.sin (atan2 (R 2 1) (R 2 2)) = R 2 1 / c := by
    rw [sin_atan2 _ _ hx_ne, hsqx]
  have hcosx : Real.cos (atan2 (R 2 1) (R 2 2)) = R 2 2 / c := by
    rw [cos_atan2 _ _ hx_ne, hsqx]
  have hsinz : Real.sin (atan2 (R 1 0) (R 0 0)) = R 1 0 / c := by
    rw [sin_atan2 _ _ hz_ne, hsqz]
  have hcosz : Real.cos (atan2 (R 1 0) (R 0 0)) = R 0 0 / c := by
    rw [cos_atan2 _ _ hz_ne, hsqz]
  have hr20b : -1 ≤ R 2 0 ∧ R 2 0 ≤ 1 := by
    have habs : |R 2 0| ≤ 1 := by
      rw [← Real.sqrt_one, ← Real.sqrt_sq_eq_abs]
      exact Real.sqrt_le_sqrt (by linarith)
    exact abs_le.mp habs
  have hsiny : Real.sin (-Real.arcsin (R 2 0)) = -(R 2 0) := by
    rw [Real.sin_neg, Real.sin_arcsin hr20b.1 hr20b.2]
  have hcosy : Real.cos (-Real.arcsin (R 2 0)) = c := by
    rw [Real.cos_neg, Real.cos_arcsin, ← hc]
  ext i j
  fin_cases i <;> fin_cases j
  · show euler_to_so3 _ 0 0 = R 0 0
    rw [euler_apply_00]
    show Real.cos (-Real.arcsin (R 2 0)) * Real.cos (atan2 (R 1 0) (R 0 0)) = _
    rw [hcosy, hcosz]
    field_simp
  · show euler_to_so3 _ 0 1 = R 0 1
    rw [euler_apply_01]
    show Real.sin (atan2 (R 2 1) (R 2 2)) * Real.sin (-Real.arcsin (R 2 0)) *
        Real.cos (atan2 (R 1 0) (R 0 0)) -
        Real.cos (atan2 (R 2 1) (R 2 2)) * Real.sin (atan2 (R 1 0) (R 0 0)) = _
    rw [hsinx, hsiny, hcosz, hcosx, hsinz]
    field_simp
    linear_combination (-(R 0 0) * c ^ 2) * hcol01 + (-(R 1 0) * c ^ 2) * hcof22 +
      (R 0 1 * c ^ 2) * hcol0 + (-(R 0 1) * c ^ 2) * hcc
  · show euler_to_so3 _ 0 2 = R 0 2
    rw [euler_apply_02]
    show Real.cos (atan2 (R 2 1) (R 2 2)) * Real.sin (-Real.arcsin (R 2 0)) *
        Real.cos (atan2 (R 1 0) (R 0 0)) +
        Real.sin (atan2 (R 2 1) (R 2 2)) * Real.sin (atan2 (R 1 0) (R 0 0)) = _
    rw [hcosx, hsiny, hcosz, hsinx, hsinz]
    field_simp
    linear_combination (-(R 0 0) * c ^ 2) * hcol02 + (R 1 0 * c ^ 2) * hcof21 +
      (R 0 2 * c ^ 2) * hcol0 + (-(R 0 2) * c ^ 2) * hcc
  · show euler_to_so3 _ 1 0 = R 1 0
    rw [euler_apply_10]
    show Real.cos (-Real.arcsin (R 2 0)) * Real.sin (atan2 (R 1 0) (R 0 0)) = _
    rw [hcosy, hsinz]
    field_simp
  · show euler_to_so3 _ 1 1 = R 1 1
    rw [euler_apply_11]
    show Real.sin (atan2 (R 2 1) (R 2 2)) * Real.sin (-Real.arcsin (R 2 0)) *
        Real.sin (atan2 (R 1 0) (R 0 0)) +
        Real.cos (atan2 (R 2 1) (R 2 2)) * Real.cos (atan2 (R 1 0) (R 0 0)) = _
    rw [hsinx, hsiny, hsinz, hcosx, hcosz]
    field_simp
    linear_combination (-(R 1 0) * c ^ 2) * hcol01 + (R 0 0 * c ^ 2) * hcof22 +
      (R 1 1 * c ^ 2) * hcol0 + (-(R 1 1) * c ^ 2) * hcc
  · show euler_to_so3 _ 1 2 = R 1 2
    rw [euler_apply_12]
    show Real.cos (atan2 (R 2 1) (R 2 2)) * Real.sin (-Real.arcsin (R 2 0)) *
        Real.sin (atan2 (R 1 0) (R 0 0)) -
        Real.sin (atan2 (R 2 1) (R 2 2)) * Real.cos (atan2 (R 1 0) (R 0 0)) = _
    rw [hcosx, hsiny, hsinz, hsinx, hcosz]
    field_simp
    linear_combination (-(R 1 0) * c ^ 2) * hcol02 + (-(R 0 0) * c ^ 2) * hcof21 +
      (R 1 2 * c ^ 2) * hcol0 + (-(R 1 2) * c ^ 2) * hcc
  · show euler_to_so3 _ 2 0 = R 2 0
    rw [euler_apply_20]
    show -Real.sin (-Real.arcsin (R 2 0)) = _
    rw [hsiny]
    ring
  · show euler_to_so3 _ 2 1 = R 2 1
    rw [euler_apply_21]
    show Real.sin (atan2 (R 2 1) (R 2 2)) * Real.cos (-Real.arcsin (R 2 0)) = _
    rw [hsinx, hcosy]
    field_simp
  · show euler_to_so3 _ 2 2 = R 2 2
    rw [euler_apply_22]
    show Real.cos (atan2 (R 2 1) (R 2 2)) * Real.cos (-Real.arcsin (R 2 0)) = _
    rw [hcosx, hcosy]
    field_simp

lemma general_case_eval (R : M3) (eps : ℝ) :
    general_case R (R 2 0) eps =
      ![atan2 (R 2 1) (nonzero_sign (R 2 2) * eps + R 2 2),
        -Real.arcsin (R 2 0),
        atan2 (R 1 0) (nonzero_sign (R 0 0) * eps + R 0 0)] := by
  have hcos : Real.cos (-Real.arcsin (R 2 0)) = Real.sqrt (1 - R 2 0 ^ 2) := by
    rw [Real.cos_neg, Real.cos_arcsin]
  have hs : nonzero_sign (Real.cos (-Real.arcsin (R 2 0))) = 1 := by
    rw [hcos, nonzero_sign, if_pos (Real.sqrt_nonneg _)]
  simp only [general_case, hs, mul_one]

lemma euler_to_so3_eq_rotZYX (angles : Fin 3 → ℝ) :
    euler_to_so3 angles = rotZ (angles 2) * rotY (angles 1) * rotX (angles 0) := by
  ext i j
  simp only [Matrix.mul_apply, Fin.sum_univ_three]
  fin_cases i <;> fin_cases j <;>
    simp [euler_to_so3, rotX, rotY, rotZ, Matrix.vecHead, Matrix.vecTail, Function.comp] <;>
    ring

lemma rotX_orth (a : ℝ) : (rotX a).transpose * rotX a = 1 := by
  ext i j
  simp only [Matrix.mul_apply, Matrix.transpose_apply, Fin.sum_univ_three]
  fin_cases i <;> fin_cases j <;>
    simp [rotX, Matrix.one_apply, Matrix.vecHead, Matrix.vecTail, Function.comp] <;>
    nlinarith [Real.sin_sq_add_cos_sq a]

lemma rotY_orth (a : ℝ) : (rotY a).transpose * rotY a = 1 := by
  ext i j
  simp only [Matrix.mul_apply, Matrix.transpose_apply, Fin.sum_univ_three]
  fin_cases i <;> fin_cases j <;>
    simp [rotY, Matrix.one_apply, Matrix.vecHead, Matrix.vecTail, Function.comp] <;>
    nlinarith [Real.sin_sq_add_cos_sq a]

lemma rotZ_orth (a : ℝ) : (rotZ a).transpose * rotZ a = 1 := by
  ext i j
  simp only [Matrix.mul_apply, Matrix.transpose_apply, Fin.sum_univ_three]
  fin_cases i <;> fin_cases j <;>
    simp [rotZ, Matrix.one_apply, Matrix.vecHead, Matrix.vecTail, Function.comp] <;>
    nlinarith [Real.sin_sq_add_cos_sq a]

lemma rotX_det (a : ℝ) : (rotX a).det = 1 := by
  simp [rotX, Matrix.det_fin_three, Matrix.vecHead, Matrix.vecTail, Function.comp]
  nlinarith [Real.sin_sq_add_cos_sq a]

lemma rotY_det (a : ℝ) : (rotY a).det = 1 := by
  simp [rotY, Matrix.det_fin_three, Matrix.vecHead, Matrix.vecTail, Function.comp]
  nlinarith [Real.sin_sq_add_cos_sq a]

lemma rotZ_det (a : ℝ) : (rotZ a).det = 1 := by
  simp [rotZ, Matrix.det_fin_three, Matrix.vecHead, Matrix.vecTail, Function.comp]
  nlinarith [Real.sin_sq_add_cos_sq a]

lemma euler_to_so3_isSO3 (angles : Fin 3 → ℝ) : isSO3 (euler_to_so3 angles) := by
  constructor
  · rw [euler_to_so3_eq_rotZYX]
    rw [Matrix.transpose_mul, Matrix.transpose_mul]
    calc ((rotX (angles 0)).transpose * ((rotY (angles 1)).transpose *
          (rotZ (angles 2)).transpose) : M3) * (rotZ (angles 2) * rotY (angles 1) * rotX (angles 0))
        = (rotX (angles 0)).transpose * ((rotY (angles 1)).transpose *
            ((rotZ (angles 2)).transpose * rotZ (angles 2)) * rotY (angles 1)) *
              rotX (angles 0) := by
          simp only [Matrix.mul_assoc]
      _ = 1 := by
          rw [rotZ_orth, Matrix.mul_one, rotY_orth, Matrix.mul_one, rotX_orth]
  · rw [euler_to_so3_eq_rotZYX, Matrix.det_mul, Matrix.det_mul,
      rotX_det, rotY_det, rotZ_det]
    norm_num

/-- Claim C10: for every real angle triple, `euler_to_so3` returns an element
of SO(3) (orthonormal columns, determinant +1); its entry (2,0) equals
`-sin θy`, hence lies in [-1, 1]. -/
theorem C10_euler_to_so3_in_SO3 (angles : Fin 3 → ℝ) :
    isSO3 (euler_to_so3 angles) ∧
      euler_to_so3 angles 2 0 = -Real.sin (angles 1) ∧
      -1 ≤ euler_to_so3 angles 2 0 ∧ euler_to_so3 angles 2 0 ≤ 1 := by
  refine ⟨euler_to_so3_isSO3 angles, euler_apply_20 angles, ?_, ?_⟩
  · rw [euler_apply_20]
    linarith [Real.sin_le_one (angles 1)]
  · rw [euler_apply_20]
    linarith [Real.neg_one_le_sin (angles 1)]

lemma isSO3_mId : isSO3 mId := by
  constructor
  · ext i j
    simp only [Matrix.mul_apply, Matrix.transpose_apply, Fin.sum_univ_three]
    fin_cases i <;> fin_cases j <;>
      simp [mId, Matrix.one_apply, Matrix.vecHead, Matrix.vecTail]
  · simp [mId, Matrix.det_fin_three, Matrix.vecHead, Matrix.vecTail]

lemma isSO3_mGimbalPlus : isSO3 mGimbalPlus := by
  constructor
  · ext i j
    simp only [Matrix.mul_apply, Matrix.transpose_apply, Fin.sum_univ_three]
    fin_cases i <;> fin_cases j <;>
      simp [mGimbalPlus, Matrix.one_apply, Matrix.vecHead, Matrix.vecTail]
  · simp [mGimbalPlus, Matrix.det_fin_three, Matrix.vecHead, Matrix.vecTail]

lemma isSO3_mGimbalMinus : isSO3 mGimbalMinus := by
  constructor
  · ext i j
    simp only [Matrix.mul_apply, Matrix.transpose_apply, Fin.sum_univ_three]
    fin_cases i <;> fin_cases j <;>
      simp [mGimbalMinus, Matrix.one_apply, Matrix.vecHead, Matrix.vecTail]
  · simp [mGimbalMinus, Matrix.det_fin_three, Matrix.vecHead, Matrix.vecTail]

lemma eps_addition_pos : 0 < eps_addition := by norm_num [eps_addition]

lemma atan2_zero_of_pos (x : ℝ) (hx : 0 < x) : atan2 0 x = 0 := by
  rw [atan2, if_pos hx]
  simp [Real.arctan_zero]

/-- Claim C3: for a rotation matrix with |r20| ≠ 1, `so3_to_euler` returns
θy = -arcsin r20, θz = atan2(r10·s, r00ε·s) and θx = atan2(r21·s, r22ε·s),
where s is the zero-to-plus-one sign of cos θy and r00ε, r22ε carry the
signed 2.38e-7 perturbation. -/
theorem C3_so3_to_euler_general (R : M3) (_hSO : isSO3 R) (h : |R 2 0| ≠ 1) :
    so3_to_euler R =
      ![atan2 (R 2 1 * nonzero_sign (Real.cos (-Real.arcsin (R 2 0))))
          ((nonzero_sign (R 2 2) * eps_addition + R 2 2) *
            nonzero_sign (Real.cos (-Real.arcsin (R 2 0)))),
        -Real.arcsin (R 2 0),
        atan2 (R 1 0 * nonzero_sign (Real.cos (-Real.arcsin (R 2 0))))
          ((nonzero_sign (R 0 0) * eps_addition + R 0 0) *
            nonzero_sign (Real.cos (-Real.arcsin (R 2 0))))] := by
  rw [so3_to_euler, if_neg h]
  rfl

/-- Witness for C3 at the identity rotation: all three angles evaluate to 0. -/
theorem C3_so3_to_euler_general_witness :
    isSO3 mId ∧ |mId 2 0| ≠ 1 ∧ so3_to_euler mId = ![0, 0, 0] := by
  have e00 : mId 0 0 = 1 := by norm_num [mId, Matrix.vecHead, Matrix.vecTail]
  have e10 : mId 1 0 = 0 := by norm_num [mId, Matrix.vecHead, Matrix.vecTail]
  have e20 : mId 2 0 = 0 := by norm_num [mId, Matrix.vecHead, Matrix.vecTail]
  have e21 : mId 2 1 = 0 := by norm_num [mId, Matrix.vecHead, Matrix.vecTail]
  have e22 : mId 2 2 = 1 := by norm_num [mId, Matrix.vecHead, Matrix.vecTail]
  have h1 : |mId 2 0| ≠ 1 := by rw [e20]; norm_num
  refine ⟨isSO3_mId, h1, ?_⟩
  rw [C3_so3_to_euler_general mId isSO3_mId h1, e00, e10, e20, e21, e22]
  have hs1 : nonzero_sign (1 : ℝ) = 1 := by norm_num [nonzero_sign]
  have hsign : nonzero_sign (Real.cos (-Real.arcsin (0 : ℝ))) = 1 := by
    norm_num [Real.arcsin_zero, Real.cos_zero, nonzero_sign]
  rw [hsign, hs1]
  have hpos : (0 : ℝ) < eps_addition + 1 := by
    have := eps_addition_pos
    linarith
  funext i
  fin_cases i <;>
    simp [Real.arcsin_zero, atan2_zero_of_pos _ hpos]

/-- Claim C2: at exact gimbal lock r20 = +1, `so3_to_euler` returns
θx = atan2(-r01, -r02ε) (r02ε the epsilon-perturbed r02), θy = -π/2, θz = 0;
at r20 = -1 it returns θy = +π/2. -/
theorem C2_so3_to_euler_gimbal (R : M3) (_hSO : isSO3 R) :
    (R 2 0 = 1 →
      so3_to_euler R 0 =
          atan2 (-R 0 1) (-(nonzero_sign (R 0 2) * eps_addition + R 0 2)) ∧
        so3_to_euler R 1 = -(π / 2) ∧ so3_to_euler R 2 = 0) ∧
    (R 2 0 = -1 → so3_to_euler R 1 = π / 2) := by
  constructor
  · intro h1
    have habs : |R 2 0| = 1 := by rw [h1]; norm_num
    have hs : nonzero_sign (R 2 0) = 1 := by rw [h1]; norm_num [nonzero_sign]
    rw [so3_to_euler, if_pos habs]
    refine ⟨?_, ?_, rfl⟩
    · simp only [gimbal_lock, hs]
      norm_num
    · simp only [gimbal_lock, hs]
      norm_num [neg_div]
  · intro h1
    have habs : |R 2 0| = 1 := by rw [h1]; norm_num
    have hs : nonzero_sign (R 2 0) = -1 := by rw [h1]; norm_num [nonzero_sign]
    rw [so3_to_euler, if_pos habs]
    simp only [gimbal_lock, hs]
    norm_num

/-- Witness for C2 at the two y-axis quarter-turn rotations. -/
theorem C2_so3_to_euler_gimbal_witness :
    (isSO3 mGimbalPlus ∧ mGimbalPlus 2 0 = 1 ∧
        so3_to_euler mGimbalPlus 1 = -(π / 2) ∧ so3_to_euler mGimbalPlus 2 = 0) ∧
      (isSO3 mGimbalMinus ∧ mGimbalMinus 2 0 = -1 ∧
        so3_to_euler mGimbalMinus 1 = π / 2) := by
  have h1 : mGimbalPlus 2 0 = 1 := by norm_num [mGimbalPlus]
  have h2 : mGimbalMinus 2 0 = -1 := by norm_num [mGimbalMinus]
  have w1 := (C2_so3_to_euler_gimbal mGimbalPlus isSO3_mGimbalPlus).1 h1
  have w2 := (C2_so3_to_euler_gimbal mGimbalMinus isSO3_mGimbalMinus).2 h2
  exact ⟨⟨isSO3_mGimbalPlus, h1, w1.2.1, w1.2.2⟩, isSO3_mGimbalMinus, h2, w2⟩

lemma so3_to_euler_batch_length (Rs : List M3) :
    (so3_to_euler_batch Rs).length = Rs.length := by
  simp [so3_to_euler_batch, torch_where]

/-- Claim C4: the batched `so3_to_euler` evaluates the general-case solution
and the gimbal solution over the whole batch and mask-selects per element:
element i receives the gimbal solution iff |r20| = 1 holds exactly, else the
general solution (equivalently, the per-element `so3_to_euler`). -/
theorem C4_so3_to_euler_batch_select (Rs : List M3) (i : ℕ) (h : i < Rs.length)
    (hb : i < (so3_to_euler_batch Rs).length) :
    (so3_to_euler_batch Rs)[i] =
        (if |Rs[i] 2 0| = 1 then gimbal_lock Rs[i] (Rs[i] 2 0) eps_addition
         else general_case Rs[i] (Rs[i] 2 0) eps_addition) ∧
      (so3_to_euler_batch Rs)[i] = so3_to_euler Rs[i] := by
  have key : (so3_to_euler_batch Rs)[i] =
      (if |Rs[i] 2 0| = 1 then gimbal_lock Rs[i] (Rs[i] 2 0) eps_addition
       else general_case Rs[i] (Rs[i] 2 0) eps_addition) := by
    simp only [so3_to_euler_batch, torch_where]
    rw [List.getElem_map, List.getElem_zip, List.getElem_zip,
      List.getElem_map, List.getElem_map, List.getElem_map]
    by_cases hg : |Rs[i] 2 0| = 1 <;> simp [hg]
  exact ⟨key, by rw [key, so3_to_euler]⟩

/-- Witness for C4 on the concrete batch [identity, gimbal]: element 0 takes
the general branch, i.e. equals the per-element converter's output. -/
theorem C4_so3_to_euler_batch_select_witness :
    (0 : ℕ) < ([mId, mGimbalPlus] : List M3).length ∧
      (so3_to_euler_batch [mId, mGimbalPlus]).get
          ⟨0, by rw [so3_to_euler_batch_length]; norm_num⟩ = so3_to_euler mId := by
  refine ⟨by norm_num, ?_⟩
  have h : (0 : ℕ) < ([mId, mGimbalPlus] : List M3).length := by norm_num
  have hb : (0 : ℕ) < (so3_to_euler_batch [mId, mGimbalPlus]).length := by
    rw [so3_to_euler_batch_length]; norm_num
  have := (C4_so3_to_euler_batch_select [mId, mGimbalPlus] 0 h hb).2
  simpa using this

lemma boolIndex_whichToDisplay {α : Type} (xs : List α) (probs : List ℚ)
    (thr : ℚ) :
    boolIndex xs (whichToDisplay probs thr) =
      (xs.zip probs).filterMap
        (fun cp => if thr < cp.2 then some cp.1 else none) := by
  induction xs generalizing probs with
  | nil => simp [boolIndex]
  | cons x xs ih =>
      cases probs with
      | nil => simp [boolIndex, whichToDisplay]
      | cons p ps =>
          by_cases hp : thr < p <;>
            simp [boolIndex, whichToDisplay, hp, List.filter] at ih ⊢ <;>
            simpa [boolIndex, whichToDisplay] using ih ps

/-- Claim C5: a query point is drawn iff its probability strictly exceeds the
display threshold (points at or below are omitted), and the threshold that
`plot_pdf_panel` passes equals 1e-2 divided by the number of query
rotations. -/
theorem C5_display_threshold (rots : List M3) (probs : List ℚ) (thr : ℚ)
    (canon : M3) (i : ℕ) (h : i < probs.length)
    (hm : i < (whichToDisplay probs thr).length) :
    ((whichToDisplay probs thr)[i] = true ↔ thr < probs[i]) ∧
      plotPdfPoints rots probs thr canon =
        ((plotCoords rots canon).zip probs).filterMap
          (fun cp => if thr < cp.2 then some cp.1 else none) ∧
      ∀ qs : List M3, panelThreshold qs = 1 / 100 / qs.length := by
  refine ⟨?_, ?_, fun qs => rfl⟩
  · simp [whichToDisplay]
  · exact boolIndex_whichToDisplay _ _ _

/-- Witness for C5: with probabilities [1/2, 1/200000] and the panel threshold
for one query, only the first point (probability strictly above threshold) is
drawn. -/
theorem C5_display_threshold_witness :
    (0 : ℕ) < ([(1 : ℚ) / 2, 1 / 200000] : List ℚ).length ∧
      ((whichToDisplay [(1 : ℚ) / 2, 1 / 200000] (panelThreshold [mId])).get
          ⟨0, by norm_num [whichToDisplay]⟩ = true ↔
        panelThreshold [mId] < (1 : ℚ) / 2) ∧
      panelThreshold [mId] = 1 / 100 := by
  have h : (0 : ℕ) < ([(1 : ℚ) / 2, 1 / 200000] : List ℚ).length := by norm_num
  have hm : (0 : ℕ) <
      (whichToDisplay [(1 : ℚ) / 2, 1 / 200000] (panelThreshold [mId])).length := by
    norm_num [whichToDisplay]
  have w := C5_display_threshold [] [(1 : ℚ) / 2, 1 / 200000]
    (panelThreshold [mId]) mId 0 h hm
  refine ⟨h, by simpa using w.1, ?_⟩
  have := w.2.2 [mId]
  simpa using this

lemma mId_mul_mId : mId * mId = mId := by
  ext i j
  simp only [Matrix.mul_apply, Fin.sum_univ_three]
  fin_cases i <;> fin_cases j <;>
    simp [mId, Matrix.vecHead, Matrix.vecTail]

/-- Claim C6: every plotted query rotation is first mapped to
`display = query * canonical` (right multiplication) and its plotted position
is longitude `atan2(D[0,0], -D[1,0])`, latitude `arcsin(D[2,0])`, taken from
the first column of the display rotation. -/
theorem C6_plot_projection (rots : List M3) (canon : M3) (i : ℕ)
    (h : i < rots.length) (hd : i < (displayRotations rots canon).length)
    (hc : i < (plotCoords rots canon).length) :
    (displayRotations rots canon)[i] = rots[i] * canon ∧
      (plotCoords rots canon)[i] =
        (atan2 ((rots[i] * canon) 0 0) (-((rots[i] * canon) 1 0)),
          Real.arcsin ((rots[i] * canon) 2 0)) := by
  constructor
  · simp [displayRotations]
  · simp [plotCoords, displayRotations]

/-- Witness for C6: one query rotation (the identity) with the identity
canonical rotation plots at longitude atan2 1 0 = π/2 and latitude
arcsin 0 = 0. -/
theorem C6_plot_projection_witness :
    (0 : ℕ) < ([mId] : List M3).length ∧
      (plotCoords [mId] mId).get ⟨0, by simp [plotCoords, displayRotations]⟩ =
        (π / 2, 0) := by
  have h : (0 : ℕ) < ([mId] : List M3).length := by norm_num
  have hd : (0 : ℕ) < (displayRotations [mId] mId).length := by
    simp [displayRotations]
  have hc : (0 : ℕ) < (plotCoords [mId] mId).length := by
    simp [plotCoords, displayRotations]
  have w := (C6_plot_projection [mId] mId 0 h hd hc).2
  have e00 : (mId * mId) 0 0 = 1 := by
    rw [mId_mul_mId]; norm_num [mId, Matrix.vecHead, Matrix.vecTail]
  have e10 : (mId * mId) 1 0 = 0 := by
    rw [mId_mul_mId]; norm_num [mId, Matrix.vecHead, Matrix.vecTail]
  have e20 : (mId * mId) 2 0 = 0 := by
    rw [mId_mul_mId]; norm_num [mId, Matrix.vecHead, Matrix.vecTail]
  refine ⟨h, ?_⟩
  have hval : atan2 ((1 : ℝ)) (-(0 : ℝ)) = π / 2 := by
    rw [atan2]
    norm_num
  have w2 : (plotCoords [mId] mId)[0] =
      (atan2 ((mId * mId) 0 0) (-((mId * mId) 1 0)),
        Real.arcsin ((mId * mId) 2 0)) := by
    simpa using w
  simp only [List.get_eq_getElem]
  show (plotCoords [mId] mId)[0] = (π / 2, 0)
  rw [w2, e00, e10, e20, hval, Real.arcsin_zero]

lemma rotation_matrix_to_angle_axis_mRotZ90 :
    rotation_matrix_to_angle_axis mRotZ90 = ![0, 0, π / 2] := by
  have e : (mRotZ90 0 0 + mRotZ90 1 1 + mRotZ90 2 2 - 1) / 2 = 0 := by
    norm_num [mRotZ90, Matrix.vecHead, Matrix.vecTail]
  funext i
  rw [rotation_matrix_to_angle_axis]
  simp only [e, Real.arccos_zero, Real.sin_pi_div_two]
  fin_cases i
  · simp [mRotZ90, Matrix.vecHead, Matrix.vecTail]
  · simp [mRotZ90, Matrix.vecHead, Matrix.vecTail]
  · simp [mRotZ90, Matrix.vecHead, Matrix.vecTail]
    ring

/-- Claim C7 (code evaluation at the failing input): on the z-axis quarter
turn, the returned angle is π/2 – the norm of the canonical axis-angle vector
(0, 0, π/2) – but the returned "axis" is the row-normalized INPUT MATRIX,
i.e. the 3×3 input itself, not the normalized 3-vector (0, 0, 1). -/
theorem C7_so3_to_axis_angle_eval :
    (so3_to_axis_angle mRotZ90).1 = π / 2 ∧
      (so3_to_axis_angle mRotZ90).2 = mRotZ90 := by
  constructor
  · show vecNorm (rotation_matrix_to_angle_axis mRotZ90) = π / 2
    rw [rotation_matrix_to_angle_axis_mRotZ90]
    have hpi : (0 : ℝ) ≤ π / 2 := by positivity
    simp only [vecNorm]
    norm_num
    rw [show (π / 2) ^ 2 = (π / 2) * (π / 2) by ring]
    exact Real.sqrt_mul_self hpi
  · show rowNormalize mRotZ90 = mRotZ90
    have hrow : ∀ i : Fin 3, vecNorm (fun k => mRotZ90 i k) = 1 := by
      intro i
      fin_cases i <;>
        simp [vecNorm, mRotZ90, Matrix.vecHead, Matrix.vecTail]
    ext i j
    rw [rowNormalize]
    simp only [Matrix.of_apply, hrow]
    norm_num

/-- Counterexample to C9: when rasterization (`plt.savefig`) fails, the error
propagates while the figure is still open – the figure is NOT released on
this exit path. -/
theorem C9_cex_savefig_error_leaves_figure_open :
    figure_to_array (Except.error RenderError.encodingFailure) Except.ok =
      (Except.error RenderError.encodingFailure, true) := rfl

/-- Amended C9: the figure is released exactly on the paths on which
`plt.savefig` returns (success or later decode failure); if `savefig` itself
raises, the error propagates to the caller with the figure still open. -/
theorem C9_figure_release (savefigResult : Except RenderError (List ℕ))
    (decodeResult : List ℕ → Except RenderError (List ℕ)) :
    ((figure_to_array savefigResult decodeResult).2 = false ↔
        ∃ buf, savefigResult = Except.ok buf) ∧
      ∀ e, savefigResult = Except.error e →
        figure_to_array savefigResult decodeResult = (Except.error e, true) := by
  constructor
  · cases savefigResult with
    | error e => simp [figure_to_array]
    | ok buf =>
        cases hd : decodeResult buf with
        | error e => simp [figure_to_array, hd]
        | ok img => simp [figure_to_array, hd]
  · intro e he
    subst he
    rfl

/-- Witness for C9 (amended): on a successful savefig and decode, the figure
ends closed; on a savefig failure it ends open. -/
theorem C9_figure_release_witness :
    ((figure_to_array (Except.ok [0]) Except.ok).2 = false ∧
        ∃ buf, (Except.ok [0] : Except RenderError (List ℕ)) = Except.ok buf) ∧
      figure_to_array (Except.error RenderError.encodingFailure) Except.ok =
        (Except.error RenderError.encodingFailure, true) := by
  constructor
  · constructor
    · exact (C9_figure_release (Except.ok [0]) Except.ok).1.mpr ⟨[0], rfl⟩
    · exact ⟨[0], rfl⟩
  · exact (C9_figure_release (Except.error RenderError.encodingFailure)
      Except.ok).2 RenderError.encodingFailure rfl

lemma dynMatmul_error_shape (A B : DynMat) (e : TensorError)
    (h : dynMatmul A B = Except.error e) :
    e = TensorError.matmulDimMismatch A.cols B.rows := by
  rw [dynMatmul] at h
  by_cases hc : A.cols = B.rows
  · rw [if_pos hc] at h
    exact absurd h (by simp)
  · rw [if_neg hc] at h
    simpa using h.symm

lemma mapExcept_dynMatmul_error (rots : List DynMat) (canon : DynMat)
    (e : TensorError)
    (h : mapExcept (fun R => dynMatmul R canon) rots = Except.error e) :
    ∃ k n, e = TensorError.matmulDimMismatch k n := by
  induction rots with
  | nil => simp [mapExcept] at h
  | cons R rs ih =>
      rw [mapExcept] at h
      cases hR : dynMatmul R canon with
      | error eR =>
          rw [hR] at h
          simp only at h
          cases h
          exact ⟨R.cols, canon.rows, dynMatmul_error_shape R canon _ hR⟩
      | ok D =>
          rw [hR] at h
          cases hrs : mapExcept (fun R => dynMatmul R canon) rs with
          | error ers =>
              rw [hrs] at h
              simp only at h
              cases h
              exact ih hrs
          | ok Ds =>
              rw [hrs] at h
              simp at h

lemma mapExcept_dynMatmul_mem_error (rots : List DynMat) (canon : DynMat)
    (R : DynMat) (hmem : R ∈ rots) (hbad : R.cols ≠ canon.rows) :
    ∃ e, mapExcept (fun S => dynMatmul S canon) rots = Except.error e := by
  induction rots with
  | nil => cases hmem
  | cons S rs ih =>
      rw [mapExcept]
      cases hS : dynMatmul S canon with
      | error eS => exact ⟨eS, rfl⟩
      | ok D =>
          have hSok : S.cols = canon.rows := by
            by_contra hne
            rw [dynMatmul, if_neg hne] at hS
            exact absurd hS (by simp)
          have hmem2 : R ∈ rs := by
            cases List.mem_cons.mp hmem with
            | inl heq => exact absurd (heq ▸ hSok) hbad
            | inr h2 => exact h2
          obtain ⟨e, he⟩ := ih hmem2
          rw [he]
          exact ⟨e, rfl⟩

lemma mapExcept_dynMatmul_ok_length (rots : List DynMat) (canon : DynMat)
    (Ds : List DynMat)
    (h : mapExcept (fun R => dynMatmul R canon) rots = Except.ok Ds) :
    Ds.length = rots.length := by
  induction rots generalizing Ds with
  | nil =>
      rw [mapExcept] at h
      cases h
      rfl
  | cons R rs ih =>
      rw [mapExcept] at h
      cases hR : dynMatmul R canon with
      | error eR => rw [hR] at h; simp at h
      | ok D =>
          rw [hR] at h
          cases hrs : mapExcept (fun R => dynMatmul R canon) rs with
          | error ers => rw [hrs] at h; simp at h
          | ok Ds2 =>
              rw [hrs] at h
              simp only [Except.ok.injEq] at h
              subst h
              simp [ih Ds2 hrs]

lemma mapExcept_dynMatmul_all_ok (rots : List DynMat) (canon : DynMat)
    (hall : ∀ R ∈ rots, R.cols = canon.rows) :
    ∃ Ds, mapExcept (fun R => dynMatmul R canon) rots = Except.ok Ds := by
  induction rots with
  | nil => exact ⟨[], rfl⟩
  | cons R rs ih =>
      obtain ⟨Ds, hDs⟩ := ih (fun S hS => hall S (List.mem_cons_of_mem _ hS))
      have hR : R.cols = canon.rows := hall R (List.mem_cons_self _ _)
      refine ⟨⟨R.rows, canon.cols,
        fun i j => ∑ k ∈ Finset.range R.cols, R.entry i k * canon.entry k j⟩ :: Ds, ?_⟩
      rw [mapExcept, dynMatmul, if_pos hR, hDs]

/-- Amended C8: the pipeline performs no shape validation; a non-3×3 rotation
makes the display-rotation matmul raise the backend dimension-mismatch error,
a probability count different from the rotation count makes the boolean-mask
indexing raise the backend mask-length error, and no input ever produces the
dedicated ShapeMismatchError the specification names. -/
theorem C8_no_shape_validation :
    (∀ (rots : List DynMat) (probs : List ℚ) (thr : ℚ) (canon : DynMat)
        (R : DynMat), R ∈ rots → R.cols ≠ canon.rows →
        ∃ k n, plotPdfChecked rots probs thr canon =
          Except.error (TensorError.matmulDimMismatch k n)) ∧
      (∀ (rots : List DynMat) (probs : List ℚ) (thr : ℚ) (canon : DynMat),
        (∀ R ∈ rots, R.cols = canon.rows) → probs.length ≠ rots.length →
        plotPdfChecked rots probs thr canon =
          Except.error (TensorError.maskLengthMismatch probs.length rots.length)) ∧
      ∀ (rots : List DynMat) (probs : List ℚ) (thr : ℚ) (canon : DynMat),
        plotPdfChecked rots probs thr canon ≠
          Except.error TensorError.shapeMismatchError := by
  refine ⟨?_, ?_, ?_⟩
  · intro rots probs thr canon R hmem hbad
    obtain ⟨e, he⟩ := mapExcept_dynMatmul_mem_error rots canon R hmem hbad
    obtain ⟨k, n, hkn⟩ := mapExcept_dynMatmul_error rots canon e he
    refine ⟨k, n, ?_⟩
    rw [plotPdfChecked, he, hkn]
  · intro rots probs thr canon hall hlen
    obtain ⟨Ds, hDs⟩ := mapExcept_dynMatmul_all_ok rots canon hall
    have hDlen : Ds.length = rots.length := mapExcept_dynMatmul_ok_length _ _ _ hDs
    have hmask : (whichToDisplay probs thr).length = probs.length := by
      simp [whichToDisplay]
    rw [plotPdfChecked, hDs]
    simp only
    rw [if_neg (by simp only [List.length_map, hmask, hDlen]; exact hlen)]
    simp [hmask, hDlen]
  · intro rots probs thr canon h
    rw [plotPdfChecked] at h
    cases hm : mapExcept (fun R => dynMatmul R canon) rots with
    | error e =>
        rw [hm] at h
        obtain ⟨k, n, hkn⟩ := mapExcept_dynMatmul_error rots canon e hm
        rw [hkn] at h
        exact absurd h (by simp)
    | ok Ds =>
        rw [hm] at h
        simp only at h
        by_cases hlen : (whichToDisplay probs thr).length =
            (Ds.map (fun D => (atan2 (D.entry 0 0) (-(D.entry 1 0)),
              Real.arcsin (D.entry 2 0)))).length
        · rw [if_pos hlen] at h
          exact absurd h (by simp)
        · rw [if_neg hlen] at h
          exact absurd h (by simp)

/-- Counterexample to C8 as stated: a 4×4 rotation fed to the pipeline
produces the backend matmul dimension-mismatch error, not the dedicated
ShapeMismatchError the claim asserts. -/
theorem C8_cex_no_shape_mismatch_error :
    plotPdfChecked [dynM4] [1] 0 dynEye3 =
        Except.error (TensorError.matmulDimMismatch 4 3) ∧
      plotPdfChecked [dynM4] [1] 0 dynEye3 ≠
        Except.error TensorError.shapeMismatchError := by
  have hmm : dynMatmul dynM4 dynEye3 =
      Except.error (TensorError.matmulDimMismatch 4 3) := by
    rw [dynMatmul]
    norm_num [dynM4, dynEye3]
  have h : plotPdfChecked [dynM4] [1] 0 dynEye3 =
      Except.error (TensorError.matmulDimMismatch 4 3) := by
    rw [plotPdfChecked, mapExcept, hmm]
  exact ⟨h, by rw [h]; simp⟩

/-- Witness for amended C8: at the concrete 4×4 input the first branch
applies, and with a 3×3 rotation but two probabilities for one rotation the
mask-length branch applies. -/
theorem C8_no_shape_validation_witness :
    (dynM4 ∈ [dynM4] ∧ dynM4.cols ≠ dynEye3.rows ∧
        ∃ k n, plotPdfChecked [dynM4] [1] 0 dynEye3 =
          Except.error (TensorError.matmulDimMismatch k n)) ∧
      ((∀ R ∈ [dynEye3], R.cols = dynEye3.rows) ∧
        ([(1 : ℚ), 1] : List ℚ).length ≠ ([dynEye3] : List DynMat).length ∧
        plotPdfChecked [dynEye3] [1, 1] 0 dynEye3 =
          Except.error (TensorError.maskLengthMismatch 2 1)) := by
  have hmem : dynM4 ∈ [dynM4] := List.mem_singleton.mpr rfl
  have hbad : dynM4.cols ≠ dynEye3.rows := by norm_num [dynM4, dynEye3]
  have hall : ∀ R ∈ [dynEye3], R.cols = dynEye3.rows := by
    intro R hR
    rw [List.mem_singleton.mp hR]
    rfl
  have hlen : ([(1 : ℚ), 1] : List ℚ).length ≠ ([dynEye3] : List DynMat).length := by
    norm_num
  refine ⟨⟨hmem, hbad, C8_no_shape_validation.1 [dynM4] [1] 0 dynEye3 dynM4 hmem hbad⟩,
    hall, hlen, ?_⟩
  have := C8_no_shape_validation.2.1 [dynEye3] [1, 1] 0 dynEye3 hall hlen
  simpa using this

/-- Claim C1 (amended): for every orthonormal determinant-+1 rotation R that is
bounded away from gimbal lock by √(1 - r20²) ≥ 1/5, the round trip
`euler_to_so3 (so3_to_euler R)` equals R entrywise within 1e-5.  (The original
claim, quantified over all rotations with |r20| ≠ 1 only, is refuted by
`C1_cex_round_trip_fails_near_gimbal` below: near gimbal lock the 2.38e-7
epsilon added to r00/r22 dominates the cosine and corrupts θz/θx.) -/
theorem C1_round_trip (R : M3) (hSO : isSO3 R)
    (hgap : 1 / 5 ≤ Real.sqrt (1 - R 2 0 ^ 2)) :
    matNear (euler_to_so3 (so3_to_euler R)) R 1e-5 := by
  obtain ⟨hcol0, hcol01, hcol02, hrow2, hcof22, hcof21⟩ := so3_equations R hSO
  set c := Real.sqrt (1 - R 2 0 ^ 2) with hcdef
  have hcpos : (0 : ℝ) < c := lt_of_lt_of_le (by norm_num) hgap
  have hr20sq : R 2 0 ^ 2 ≤ 1 := by
    nlinarith [sq_nonneg (R 0 0), sq_nonneg (R 1 0)]
  have hcsq : c ^ 2 = 1 - R 2 0 ^ 2 := by
    rw [hcdef, Real.sq_sqrt (by linarith)]
  have hr20ne : |R 2 0| ≠ 1 := by
    intro habs
    have h1 : R 2 0 ^ 2 = 1 := by
      rw [← sq_abs, habs]
      norm_num
    rw [h1] at hcsq
    nlinarith
  have heps : (0 : ℝ) < eps_addition := by norm_num [eps_addition]
  have hxy_x : R 2 2 ^ 2 + R 2 1 ^ 2 = c ^ 2 := by linarith
  have hxy_z : R 0 0 ^ 2 + R 1 0 ^ 2 = c ^ 2 := by linarith
  have hse : so3_to_euler R =
      ![atan2 (R 2 1) (nonzero_sign (R 2 2) * eps_addition + R 2 2),
        -Real.arcsin (R 2 0),
        atan2 (R 1 0) (nonzero_sign (R 0 0) * eps_addition + R 0 0)] := by
    rw [so3_to_euler, if_neg hr20ne, general_case_eval]
  have hE : euler_to_so3
      ![atan2 (R 2 1) (R 2 2), -Real.arcsin (R 2 0), atan2 (R 1 0) (R 0 0)] = R :=
    so3_exact_reconstruction R hSO c hcdef hcpos
  have hdx : |atan2 (R 2 1) (nonzero_sign (R 2 2) * eps_addition + R 2 2) -
      atan2 (R 2 1) (R 2 2)| ≤ eps_addition / c :=
    atan2_perturb (R 2 2) (R 2 1) c eps_addition heps hcpos hxy_x
  have hdz : |atan2 (R 1 0) (nonzero_sign (R 0 0) * eps_addition + R 0 0) -
      atan2 (R 1 0) (R 0 0)| ≤ eps_addition / c :=
    atan2_perturb (R 0 0) (R 1 0) c eps_addition heps hcpos hxy_z
  have hec : eps_addition / c ≤ eps_addition / (1 / 5) :=
    div_le_div_of_nonneg_left heps.le (by norm_num) hgap
  intro i j
  have hlip := euler_entry_lipschitz
    (atan2 (R 2 1) (nonzero_sign (R 2 2) * eps_addition + R 2 2))
    (-Real.arcsin (R 2 0))
    (atan2 (R 1 0) (nonzero_sign (R 0 0) * eps_addition + R 0 0))
    (atan2 (R 2 1) (R 2 2)) (atan2 (R 1 0) (R 0 0)) i j
  rw [hse]
  calc |euler_to_so3
        ![atan2 (R 2 1) (nonzero_sign (R 2 2) * eps_addition + R 2 2),
          -Real.arcsin (R 2 0),
          atan2 (R 1 0) (nonzero_sign (R 0 0) * eps_addition + R 0 0)] i j -
        R i j|
      = |euler_to_so3
        ![atan2 (R 2 1) (nonzero_sign (R 2 2) * eps_addition + R 2 2),
          -Real.arcsin (R 2 0),
          atan2 (R 1 0) (nonzero_sign (R 0 0) * eps_addition + R 0 0)] i j -
        euler_to_so3
          ![atan2 (R 2 1) (R 2 2), -Real.arcsin (R 2 0),
            atan2 (R 1 0) (R 0 0)] i j| := by rw [hE]
    _ ≤ 2 * |atan2 (R 2 1) (nonzero_sign (R 2 2) * eps_addition + R 2 2) -
          atan2 (R 2 1) (R 2 2)| +
        2 * |atan2 (R 1 0) (nonzero_sign (R 0 0) * eps_addition + R 0 0) -
          atan2 (R 1 0) (R 0 0)| := hlip
    _ ≤ 2 * (eps_addition / c) + 2 * (eps_addition / c) := by linarith
    _ ≤ 1e-5 := by
        have h5 : eps_addition / (1 / 5) = 5 * eps_addition := by ring
        have h6 : eps_addition / c ≤ 5 * eps_addition := h5 ▸ hec
        have h7 : (5 : ℝ) * eps_addition ≤ 119 / 100000000 := by
          norm_num [eps_addition]
        have h8 : (1e-5 : ℝ) = 1 / 100000 := by norm_num
        rw [h8]
        linarith

/-- Witness for amended C1: the identity rotation satisfies the hypotheses and
round-trips within the tolerance. -/
theorem C1_round_trip_witness :
    isSO3 mId ∧ 1 / 5 ≤ Real.sqrt (1 - mId 2 0 ^ 2) ∧
      matNear (euler_to_so3 (so3_to_euler mId)) mId 1e-5 := by
  have e20 : mId 2 0 = 0 := by norm_num [mId, Matrix.vecHead, Matrix.vecTail]
  have h1 : (1 : ℝ) / 5 ≤ Real.sqrt (1 - mId 2 0 ^ 2) := by
    rw [e20]
    norm_num [Real.sqrt_one]
  exact ⟨isSO3_mId, h1, C1_round_trip mId isSO3_mId h1⟩

lemma cex_pyth : cexC ^ 2 + cexS ^ 2 = 1 := by
  rw [cexC, cexS]
  rw [div_pow, div_pow, div_add_div_same, div_eq_one_iff_eq (by positivity)]
  norm_num

lemma cexC_pos : 0 < cexC := by rw [cexC]; positivity

lemma cexS_pos : 0 < cexS := by rw [cexS]; positivity

lemma cexS_lt_one : cexS < 1 := by
  rw [cexS, div_lt_one (by positivity)]
  norm_num

lemma mCex_isSO3 : isSO3 mCex := by
  constructor
  · ext i j
    simp only [Matrix.mul_apply, Matrix.transpose_apply, Fin.sum_univ_three]
    fin_cases i <;> fin_cases j <;>
      simp [mCex, Matrix.one_apply, Matrix.vecHead, Matrix.vecTail] <;>
      nlinarith [cex_pyth]
  · simp [mCex, Matrix.det_fin_three, Matrix.vecHead, Matrix.vecTail]
    nlinarith [cex_pyth]

/-- Counterexample to C1 as stated: `mCex` is orthonormal with determinant +1
and |r20| ≠ 1, yet its round trip differs from it by ≈ 0.99 in entry (0,1) –
far beyond the 1e-5 tolerance – because adding 2.38e-7 to r00 = 0 swamps the
true cosine r00-magnitude ≈ 2e-9 and collapses θz from π/2 to ≈ 0.0084. -/
theorem C1_cex_round_trip_fails_near_gimbal :
    isSO3 mCex ∧ |mCex 2 0| ≠ 1 ∧
      ¬ matNear (euler_to_so3 (so3_to_euler mCex)) mCex 1e-5 := by
  have heps : (0 : ℝ) < eps_addition := by norm_num [eps_addition]
  have e00 : mCex 0 0 = 0 := by simp [mCex, Matrix.vecHead, Matrix.vecTail]
  have e01 : mCex 0 1 = -1 := by simp [mCex, Matrix.vecHead, Matrix.vecTail]
  have e10 : mCex 1 0 = cexC := by simp [mCex, Matrix.vecHead, Matrix.vecTail]
  have e20 : mCex 2 0 = -cexS := by simp [mCex, Matrix.vecHead, Matrix.vecTail]
  have e21 : mCex 2 1 = 0 := by simp [mCex, Matrix.vecHead, Matrix.vecTail]
  have e22 : mCex 2 2 = cexC := by simp [mCex, Matrix.vecHead, Matrix.vecTail]
  have habs : |mCex 2 0| ≠ 1 := by
    rw [e20, abs_neg, abs_of_pos cexS_pos]
    exact ne_of_lt cexS_lt_one
  refine ⟨mCex_isSO3, habs, ?_⟩
  intro hnear
  have h01 := hnear 0 1
  have hgen : so3_to_euler mCex =
      ![atan2 0 (nonzero_sign cexC * eps_addition + cexC),
        -Real.arcsin (-cexS),
        atan2 cexC (nonzero_sign 0 * eps_addition + 0)] := by
    rw [so3_to_euler, if_neg habs, general_case_eval, e00, e10, e21, e22, e20]
  have hsC : nonzero_sign cexC = 1 := by
    rw [nonzero_sign, if_pos cexC_pos.le]
  have hs0 : nonzero_sign (0 : ℝ) = 1 := by
    rw [nonzero_sign, if_pos le_rfl]
  have hthx : atan2 0 (nonzero_sign cexC * eps_addition + cexC) = 0 := by
    rw [hsC, one_mul, atan2, if_pos (by linarith [cexC_pos])]
    simp [Real.arctan_zero]
  have hthz : atan2 cexC (nonzero_sign 0 * eps_addition + 0) =
      Real.arctan (cexC / eps_addition) := by
    rw [hs0, one_mul, add_zero, atan2, if_pos heps]
  rw [hgen, hthx, hthz] at h01
  have hval : euler_to_so3
      ![0, -Real.arcsin (-cexS), Real.arctan (cexC / eps_addition)] 0 1 =
      -Real.sin (Real.arctan (cexC / eps_addition)) := by
    rw [euler_apply_01]
    simp
  rw [hval, e01] at h01
  set u := cexC / eps_addition with hudef
  have hu_pos : 0 ≤ u := by
    rw [hudef]
    exact div_nonneg cexC_pos.le heps.le
  have hu : u ≤ 1 / 100 := by
    rw [hudef, cexC, eps_addition]
    rw [div_le_div_iff₀ (by positivity) (by norm_num)]
    norm_num
  have hsin_le : Real.sin (Real.arctan u) ≤ u := by
    rw [Real.sin_arctan]
    apply div_le_self hu_pos
    nth_rewrite 1 [show (1 : ℝ) = Real.sqrt 1 from Real.sqrt_one.symm]
    exact Real.sqrt_le_sqrt (by nlinarith [sq_nonneg u])
  have habs2 : |-Real.sin (Real.arctan u) - -1| = 1 - Real.sin (Real.arctan u) := by
    rw [abs_of_nonneg]
    · ring
    · have := Real.sin_le_one (Real.arctan u)
      linarith
  rw [habs2] at h01
  have : (1 : ℝ) - Real.sin (Real.arctan u) ≥ 99 / 100 := by linarith
  have hlt : (1e-5 : ℝ) < 99 / 100 := by norm_num
  linarith

end ImplicitPdf
